import Mathlib

/-!
Verification of the YDTB SPA loader (`public/loader.js`) against its
natural-language specification.

The JavaScript source is shallowly embedded: JS strings become Lean
`String`s, JS string methods (`startsWith`, `endsWith`, `includes`,
`substring(1)`, `slice(0,-1)`) become explicit operations on the
underlying character list, JS objects used as string-keyed maps become
association lists where a later assignment shadows an earlier one, and
the effectful pipeline `initApp` becomes a pure function from a
configuration and an environment (fetch outcome, load outcomes, DOM
shape) to the list of observable events it performs, in order.
-/

set_option maxRecDepth 4000

namespace SpaLoader

/-- JS `s.startsWith(p)`: `p` is a prefix of `s`. -/
def strStartsWith (s p : String) : Bool :=
  p.data.isPrefixOf s.data

/-- JS `s.endsWith(p)`: `p` is a suffix of `s`. -/
def strEndsWith (s p : String) : Bool :=
  p.data.isSuffixOf s.data

/-- `p` is a contiguous sublist of `l`: `p` is a prefix of some suffix. -/
def listHasSub (p : List Char) : List Char → Bool
  | [] => p.isPrefixOf []
  | a :: rest => p.isPrefixOf (a :: rest) || listHasSub p rest

/-- JS `s.includes(p)`: `p` occurs contiguously inside `s`. -/
def strContains (s p : String) : Bool :=
  listHasSub p.data s.data

/-- JS `s.substring(1)`: drop the first character. -/
def dropFirst (s : String) : String :=
  ⟨s.data.drop 1⟩

/-- JS `s.slice(0, -1)`: drop the last character. -/
def dropLastChar (s : String) : String :=
  ⟨s.data.dropLast⟩

/-- `joinUrl` from `setupAssetResolver` (loader.js:276-281): if the path is
falsy return the base; otherwise remove one trailing slash from the base and
one leading slash from the path and concatenate with a single slash. -/
def joinUrl (base path : String) : String :=
  if path = "" then base
  else
    let baseWithoutSlash := if strEndsWith base "/" then dropLastChar base else base
    let pathWithoutSlash := if strStartsWith path "/" then dropFirst path else path
    baseWithoutSlash ++ "/" ++ pathWithoutSlash

/-- The URL join inlined in `loadJavaScript` (loader.js:118-119) and
`loadStylesheet` (loader.js:137-138): ensure the base ends with a slash,
then append the path verbatim. -/
def injectJoinUrl (base url : String) : String :=
  (if strEndsWith base "/" then base else base ++ "/") ++ url

/-- The manifest-URL join in `fetchManifest` (loader.js:40-41): trim one
trailing slash from the base, then append the manifest path verbatim. -/
def manifestUrlOf (base manifestPath : String) : String :=
  (if strEndsWith base "/" then dropLastChar base else base) ++ manifestPath

/-- `window.__resolveAssetUrl` (loader.js:284-294): falsy input yields `""`;
an input starting with `http://` or `https://` is returned unchanged;
anything else is joined with the base URL via `joinUrl`.  Note that it does
not consult the asset map and does not special-case `data:` or `blob:`. -/
def resolveAssetUrl (base assetPath : String) : String :=
  if assetPath = "" then ""
  else if strStartsWith assetPath "http://" || strStartsWith assetPath "https://" then
    assetPath
  else
    joinUrl base assetPath

/-- A Vite manifest entry as consumed by the loader: `file` is the published
output path (required by the manifest format; the loader guards it with a JS
truthiness check, i.e. against `""`), `isEntry` the entry flag, `css` and
`assets` the dependency lists (`[]` models an absent field, which is falsy in
all the places the loader tests it). -/
structure ManifestEntry where
  file : String
  isEntry : Bool := false
  css : List String := []
  assets : List String := []
deriving DecidableEq, Repr

/-- A manifest is a JS object keyed by module id; modelled as an association
list in insertion order (which is the order `Object.keys`/`Object.values`/
`Object.entries` produce for string keys). -/
abbrev Manifest := List (String × ManifestEntry)

/-- First heuristic of `findMainAssets` (loader.js:63-65): an entry with
`isEntry` set, a truthy `file`, and a file name starting with `"YDTB."`. -/
def entryHeur1 (e : ManifestEntry) : Bool :=
  e.isEntry && (e.file != "") && strStartsWith e.file "YDTB."

/-- Second heuristic (loader.js:68-72): any entry with `isEntry` set and a
truthy `file`. -/
def entryHeur2 (e : ManifestEntry) : Bool :=
  e.isEntry && (e.file != "")

/-- Third heuristic's key test (loader.js:76-77): the manifest key contains
`"main."` or `"/main"`. -/
def mainKeyMarker (k : String) : Bool :=
  strContains k "main." || strContains k "/main"

/-- The `mainJsEntry` selection of `findMainAssets` (loader.js:63-82): the
three heuristics tried in order, first match wins. -/
def findMainJsEntry (m : Manifest) : Option ManifestEntry :=
  match (m.map Prod.snd).find? entryHeur1 with
  | some e => some e
  | none =>
    match (m.map Prod.snd).find? entryHeur2 with
    | some e => some e
    | none => (m.find? fun kv => mainKeyMarker kv.1).map Prod.snd

/-- The `mainCssFile` selection of `findMainAssets` (loader.js:85-98): the
chosen entry's first `css` path when that list is non-empty; otherwise, over
the concatenation of every entry's `css` list, the first path starting with
`"YDTB."`, or failing that the first path at all. -/
def findMainCssFile (m : Manifest) (mainJsEntry : Option ManifestEntry) : Option String :=
  match mainJsEntry with
  | some e =>
    if e.css.length > 0 then e.css.head?
    else
      let cssFiles := (m.map Prod.snd).flatMap (fun entry => entry.css)
      match cssFiles.find? (fun cssPath => strStartsWith cssPath "YDTB.") with
      | some c => some c
      | none => cssFiles.head?
  | none =>
    let cssFiles := (m.map Prod.snd).flatMap (fun entry => entry.css)
    match cssFiles.find? (fun cssPath => strStartsWith cssPath "YDTB.") with
    | some c => some c
    | none => cssFiles.head?

/-- JS `Array.prototype.join(', ')` over the manifest keys. -/
def jsJoinComma : List String → String
  | [] => ""
  | a :: rest => rest.foldl (fun acc s => acc ++ ", " ++ s) a

/-- The error message thrown by `findMainAssets` when no entry is found
(loader.js:100-103). -/
def noEntryMessage (m : Manifest) : String :=
  "Could not find main JS entry in manifest. Available keys: " ++
    jsJoinComma (m.map Prod.fst)

/-- `findMainAssets` (loader.js:59-109): returns the published entry file and
the optional stylesheet, or throws when no entry heuristic matched. -/
def findMainAssets (m : Manifest) : Except String (String × Option String) :=
  let mainJsEntry := findMainJsEntry m
  let mainCssFile := findMainCssFile m mainJsEntry
  match mainJsEntry with
  | none => .error (noEntryMessage m)
  | some e => .ok (e.file, mainCssFile)

/-- A JS object used as a string map: association list where assignment
appends and lookup takes the latest binding. -/
abbrev ObjMap := List (String × String)

/-- JS `obj[k] = v`. -/
def objInsert (m : ObjMap) (k v : String) : ObjMap :=
  m ++ [(k, v)]

/-- JS `obj[k]` (and `k in obj` as `≠ none`): the most recent assignment. -/
def objLookup (m : ObjMap) (k : String) : Option String :=
  (m.reverse.find? fun kv => kv.1 == k).map Prod.snd

/-- The asset-map construction of `setupAssetResolver` (loader.js:297-334):
for every manifest entry in order, map its key (and the key with a leading
`"src/"` stripped) to its `file`; then for every path in its `assets` list,
map any original key whose entry's `file` equals that asset (and its
`"src/"`-stripped form) to the asset, and always map the asset to itself. -/
def buildAssetMap (m : Manifest) : ObjMap :=
  m.foldl
    (fun acc kv =>
      let k := kv.1
      let entry := kv.2
      let acc :=
        if entry.file != "" then
          let acc := objInsert acc k entry.file
          if strStartsWith k "src/" then objInsert acc ⟨k.data.drop 4⟩ entry.file
          else acc
        else acc
      entry.assets.foldl
        (fun acc asset =>
          let acc :=
            match m.find? (fun kv2 => kv2.2.file == asset) with
            | some kv2 =>
              let acc := objInsert acc kv2.1 asset
              if strStartsWith kv2.1 "src/" then objInsert acc ⟨kv2.1.data.drop 4⟩ asset
              else acc
            | none => acc
          objInsert acc asset asset)
        acc)
    []

/-- The intercepted `Image.prototype.src` setter (loader.js:343-375) as a
transformation layered over the previously installed setter `prevSet`: falsy
and absolute/`data:`/`blob:` values pass through unchanged; a relative value
is normalized (one leading slash stripped), looked up in the asset map
(joined with the base when found, joined as-is when not) and the result is
handed to `prevSet`. -/
def srcSetterLayer (base : String) (assetMap : ObjMap) (prevSet : String → String) :
    String → String :=
  fun url =>
    if url = "" then prevSet url
    else if strStartsWith url "http://" || strStartsWith url "https://" ||
        strStartsWith url "data:" || strStartsWith url "blob:" then
      prevSet url
    else
      let normalizedPath := if strStartsWith url "/" then dropFirst url else url
      let resolvedUrl :=
        match objLookup assetMap normalizedPath with
        | some mapped => joinUrl base mapped
        | none => joinUrl base normalizedPath
      prevSet resolvedUrl

/-- The hardcoded `config` object (loader.js:19-29), with its fields left
abstract so the pipeline can be analysed for any deployment rewrite. -/
structure Config where
  baseUrl : String := "https://your-org.github.io/your-repo"
  rootElementId : String := "root"
  manifestPath : String := "/.vite/manifest.json"
deriving DecidableEq, Repr

/-- The externally determined outcomes the pipeline reacts to: the result of
the manifest fetch (transport error, non-ok status or JSON parse failure all
surface as the catch in `fetchManifest`, carrying the thrown message), the
success of the stylesheet and script load events, and whether an element with
the configured root id exists in the document. -/
structure Env where
  fetchResult : Except String Manifest
  cssOk : Bool := true
  jsOk : Bool := true
  rootExists : Bool := true

/-- Observable actions of the pipeline, in program order. -/
inductive Event where
  | fetchReq (url : String)
  | setupResolver
  | listenerAdded
  | showErrorCall (message : String)
  | writePanel (elemId message : String)
  | logNoRoot (message : String)
  | warnNoCss
  | injectCss (url : String)
  | injectJs (url : String)
  | patchImages
deriving DecidableEq, Repr

/-- `showErrorMessage` (loader.js:152-166): one invocation; it writes the
panel into the single element found by `getElementById(config.rootElementId)`
when one exists, and only logs otherwise. -/
def showErrorEvents (cfg : Config) (env : Env) (message : String) : List Event :=
  Event.showErrorCall message ::
    (if env.rootExists then [Event.writePanel cfg.rootElementId message]
     else [Event.logNoRoot message])

/-- Whether `if (assets.css)` takes the then-branch: the value is a string
and truthy. -/
def cssTruthy : Option String → Bool
  | some c => c != ""
  | none => false

/-- `initApp` (loader.js:171-219) as the ordered list of observable events.
The manifest fetch comes first; on fetch failure `fetchManifest`'s catch
shows an error and rethrows, and `initApp`'s catch shows a second error.
On success the asset resolver is installed and the error listener added, the
main assets are resolved (a throw lands in `initApp`'s catch), the stylesheet
is injected when present (its load failure aborts before the script), then
the script is injected, and finally existing images are patched. -/
def runInitApp (cfg : Config) (env : Env) : List Event :=
  let manifestUrl := manifestUrlOf cfg.baseUrl cfg.manifestPath
  Event.fetchReq manifestUrl ::
    match env.fetchResult with
    | .error e =>
      showErrorEvents cfg env "Failed to load application manifest." ++
        showErrorEvents cfg env ("Failed to load application resources: " ++ e)
    | .ok manifest =>
      Event.setupResolver :: Event.listenerAdded ::
        match findMainAssets manifest with
        | .error msg =>
          showErrorEvents cfg env ("Failed to load application resources: " ++ msg)
        | .ok (jsFile, cssFile) =>
          let jsUrl := injectJoinUrl cfg.baseUrl jsFile
          let jsPart : List Event :=
            Event.injectJs jsUrl ::
              (if env.jsOk then [Event.patchImages]
               else
                 showErrorEvents cfg env
                   ("Failed to load application resources: Failed to load script: " ++ jsUrl))
          if cssTruthy cssFile then
            let cssUrl := injectJoinUrl cfg.baseUrl (cssFile.getD "")
            Event.injectCss cssUrl ::
              (if env.cssOk then jsPart
               else
                 showErrorEvents cfg env
                   ("Failed to load application resources: Failed to load stylesheet: " ++
                     cssUrl))
          else
            Event.warnNoCss :: jsPart

/-- Number of invocations of `showErrorMessage` in a trace. -/
def countShowError (trace : List Event) : Nat :=
  (trace.filter fun e => match e with | Event.showErrorCall _ => true | _ => false).length

/-- Whether an event belongs to a pipeline stage after manifest fetching:
resolver installation, asset injection or image patching. -/
def isLaterStageEvent : Event → Bool
  | Event.setupResolver => true
  | Event.listenerAdded => true
  | Event.injectCss _ => true
  | Event.injectJs _ => true
  | Event.patchImages => true
  | _ => false

/-! ## Claim-side reference definitions

These follow the specification's words, to be compared with the definitions
translated from the source. -/

/-- The resolver behaviour the specification ascribes to
`window.__resolveAssetUrl` on non-absolute paths: strip one leading slash,
look the stripped path up in the asset map, join the base with the mapped
published path when found, and join the base with the literal path only when
absent. -/
def specClaimedResolve (base : String) (assetMap : ObjMap) (path : String) : String :=
  let stripped := if strStartsWith path "/" then dropFirst path else path
  match objLookup assetMap stripped with
  | some mapped => joinUrl base mapped
  | none => joinUrl base path

/-- The join rule the specification states: remove exactly one trailing
slash from the base and exactly one leading slash from the path, then
concatenate with a single separating slash. -/
def specClaimedJoin (base path : String) : String :=
  (if strEndsWith base "/" then dropLastChar base else base) ++ "/" ++
    (if strStartsWith path "/" then dropFirst path else path)

/-- Entry selection as the specification words it: (1) an `isEntry` entry
whose file matched the recognized output prefix, (2) any `isEntry` entry,
(3) an entry reachable by a key containing the main-module marker. -/
def specSelectEntry (m : Manifest) : Option ManifestEntry :=
  match (m.map Prod.snd).find? (fun e => e.isEntry && strStartsWith e.file "YDTB.") with
  | some e => some e
  | none =>
    match (m.map Prod.snd).find? (fun e => e.isEntry) with
    | some e => some e
    | none => (m.find? fun kv => mainKeyMarker kv.1).map Prod.snd

/-- Stylesheet selection as the specification words it: the chosen entry's
first own `css` path when that list is non-empty; else the first of all
collected `css` paths matching the naming convention; else the first `css`
path anywhere; else none. -/
def specSelectCss (m : Manifest) (chosen : Option ManifestEntry) : Option String :=
  match chosen with
  | some e =>
    if e.css ≠ [] then e.css.head?
    else
      let allCss := (m.map Prod.snd).flatMap ManifestEntry.css
      (allCss.find? fun c => strStartsWith c "YDTB.") <|> allCss.head?
  | none =>
    let allCss := (m.map Prod.snd).flatMap ManifestEntry.css
    (allCss.find? fun c => strStartsWith c "YDTB.") <|> allCss.head?

/-! ## Spec-modelled configurable variant

The README documents a configurable loader (`window.SpaLoaderConfig` with
`baseUrl`, `containerSelector`, `mountStrategy`, `showErrors`) whose code is
not under `src/`; `src/public/loader.js` is the earlier hardcoded-config
variant.  The components below are modelled from the spec for the claims
that concern that variant. -/

/-- Modelled from the spec: the caller-supplied partial option set of the
configurable variant (§4.1, §6); only the fields these claims need. -/
structure SpecOpts where
  baseUrl : Option String := none
  containerSelector : String := "#root"
  mountStrategy : String := "first"
  showErrors : Bool := true

/-- Modelled from the spec: ConfigResolver (§4.1), absent from
`src/public/loader.js`; fails fast exactly when `baseUrl` is absent or
empty, otherwise produces the validated configuration. -/
def resolveSpecConfig (opts : SpecOpts) : Except String SpecOpts :=
  match opts.baseUrl with
  | none => .error "ConfigurationError: baseUrl is required"
  | some b => if b = "" then .error "ConfigurationError: baseUrl is required" else .ok opts

/-- Modelled from the spec: ContainerLocator's selection rule (§4.2) over
the list of elements matching the selector, in document order: `first` the
first match, `last` the last match, `all` every match, anything else
degrades to `first`. -/
def selectByStrategy (strategy : String) (matched : List Nat) : List Nat :=
  if strategy = "last" then
    match matched.getLast? with
    | some e => [e]
    | none => []
  else if strategy = "all" then matched
  else matched.take 1

/-- Observable actions of the spec-modelled configurable pipeline. -/
inductive SpecEvent where
  | log (message : String)
  | domQuery (selector : String)
  | netFetch (url : String)
  | panelWrite (element : Nat) (message : String)
deriving DecidableEq, Repr

/-- Modelled from the spec: ErrorPresenter (§4.7): on failure, render the
fallback panel into every located container when `showErrors` is enabled,
otherwise only log. -/
def presentError (showErrors : Bool) (located : List Nat) (message : String) :
    List SpecEvent :=
  SpecEvent.log message ::
    (if showErrors then located.map fun el => SpecEvent.panelWrite el message else [])

/-- The spec-modelled pipeline environment: elements matching the container
selector, and the manifest fetch outcome. -/
structure SpecEnv where
  matched : List Nat
  fetchResult : Except String Manifest

/-- Modelled from the spec: the configurable pipeline (§2 control flow, §4.1,
§7, §8) up to the stages these claims exercise.  Config validation happens
before any DOM query or network access; a missing/empty `baseUrl` aborts with
only a diagnostic log.  Containers are then located, the manifest fetched,
and a fetch failure is presented into every located container. -/
def runSpecPipeline (opts : SpecOpts) (env : SpecEnv) : List SpecEvent :=
  match resolveSpecConfig opts with
  | .error e => [SpecEvent.log e]
  | .ok cfg =>
    SpecEvent.domQuery cfg.containerSelector ::
      if env.matched = [] then [SpecEvent.log "ContainerNotFoundError"]
      else
        let located := selectByStrategy cfg.mountStrategy env.matched
        SpecEvent.netFetch (manifestUrlOf (cfg.baseUrl.getD "") "/.vite/manifest.json") ::
          match env.fetchResult with
          | .error e => presentError cfg.showErrors located ("ManifestFetchError: " ++ e)
          | .ok _ => [SpecEvent.log "manifest fetched"]

/-- Whether an event is an asset injection or the final image patch, the
stages following asset identification. -/
def isInjectionEvent : Event → Bool
  | Event.injectCss _ => true
  | Event.injectJs _ => true
  | Event.patchImages => true
  | _ => false

/-- Whether an event belongs to the script stage or later. -/
def isScriptStageEvent : Event → Bool
  | Event.injectJs _ => true
  | Event.patchImages => true
  | _ => false

/-- Whether an event is a stylesheet injection. -/
def isInjectCssEvent : Event → Bool
  | Event.injectCss _ => true
  | _ => false

/-- Whether an event is an error-presenter invocation. -/
def isShowErrorEvent : Event → Bool
  | Event.showErrorCall _ => true
  | _ => false

/-- Whether a spec-pipeline event touches the DOM or the network. -/
def isDomOrNetwork : SpecEvent → Bool
  | SpecEvent.log _ => false
  | SpecEvent.domQuery _ => true
  | SpecEvent.netFetch _ => true
  | SpecEvent.panelWrite _ _ => true

/-- Concrete one-entry manifest used by the counterexamples: the original
source path `src/main.tsx` published as `YDTB.abc.js`. -/
def manifestC1 : Manifest :=
  [("src/main.tsx", { file := "YDTB.abc.js", isEntry := true })]

/-! ## Helper lemmas -/

theorem find?_congr_mem {α : Type} {p q : α → Bool} :
    ∀ {l : List α}, (∀ a ∈ l, p a = q a) → l.find? p = l.find? q := by
  intro l h
  induction l with
  | nil => rfl
  | cons a t ih =>
    have ha := h a (by simp)
    cases hq : q a with
    | true => simp [List.find?, ha, hq]
    | false =>
      simp only [List.find?, ha, hq]
      exact ih fun x hx => h x (by simp [hx])

theorem dropLastChar_append_slash {b : String} (h : strEndsWith b "/" = true) :
    dropLastChar b ++ "/" = b := by
  apply String.ext
  rw [String.data_append]
  show b.data.dropLast ++ ['/'] = b.data
  have hsuf : ['/'] <:+ b.data := by
    have := (List.isSuffixOf_iff_suffix).mp h
    simpa using this
  obtain ⟨t, ht⟩ := hsuf
  rw [← ht, List.dropLast_concat]

theorem string_append_assoc (a b c : String) : a ++ b ++ c = a ++ (b ++ c) := by
  apply String.ext
  simp [String.data_append, List.append_assoc]

theorem startsWith_ne_of_head_ne {p : String} {a b : Char} {as bs : List Char}
    (hab : (b == a) = false)
    (ha : (a :: as).isPrefixOf p.data = true) :
    (b :: bs).isPrefixOf p.data = false := by
  cases hp : p.data with
  | nil => rw [hp] at ha; simp [List.isPrefixOf] at ha
  | cons c cs =>
    rw [hp] at ha
    simp only [List.isPrefixOf, Bool.and_eq_true, beq_iff_eq] at ha
    obtain ⟨hac, -⟩ := ha
    simp only [List.isPrefixOf, Bool.and_eq_false_iff]
    left
    rw [← hac]
    exact hab

theorem startsWith_ne_empty {p q : String} {c : Char} {cs : List Char}
    (hq : q.data = c :: cs) (h : strStartsWith p q = true) : p ≠ "" := by
  intro hp
  rw [hp] at h
  unfold strStartsWith at h
  rw [hq] at h
  simp [List.isPrefixOf] at h

theorem data_not_http {p : String} (h : strStartsWith p "data:" = true) :
    strStartsWith p "http://" = false := by
  unfold strStartsWith at h ⊢
  have hd : ("data:" : String).data = 'd' :: ['a', 't', 'a', ':'] := rfl
  have hh : ("http://" : String).data = 'h' :: ['t', 't', 'p', ':', '/', '/'] := rfl
  rw [hd] at h
  rw [hh]
  exact startsWith_ne_of_head_ne (by decide) h

theorem data_not_https {p : String} (h : strStartsWith p "data:" = true) :
    strStartsWith p "https://" = false := by
  unfold strStartsWith at h ⊢
  have hd : ("data:" : String).data = 'd' :: ['a', 't', 'a', ':'] := rfl
  have hh : ("https://" : String).data = 'h' :: ['t', 't', 'p', 's', ':', '/', '/'] := rfl
  rw [hd] at h
  rw [hh]
  exact startsWith_ne_of_head_ne (by decide) h

theorem blob_not_http {p : String} (h : strStartsWith p "blob:" = true) :
    strStartsWith p "http://" = false := by
  unfold strStartsWith at h ⊢
  have hd : ("blob:" : String).data = 'b' :: ['l', 'o', 'b', ':'] := rfl
  have hh : ("http://" : String).data = 'h' :: ['t', 't', 'p', ':', '/', '/'] := rfl
  rw [hd] at h
  rw [hh]
  exact startsWith_ne_of_head_ne (by decide) h

theorem blob_not_https {p : String} (h : strStartsWith p "blob:" = true) :
    strStartsWith p "https://" = false := by
  unfold strStartsWith at h ⊢
  have hd : ("blob:" : String).data = 'b' :: ['l', 'o', 'b', ':'] := rfl
  have hh : ("https://" : String).data = 'h' :: ['t', 't', 'p', 's', ':', '/', '/'] := rfl
  rw [hd] at h
  rw [hh]
  exact startsWith_ne_of_head_ne (by decide) h

/-! ## Claims -/

/-- C4 counterexample: the claim says `window.__resolveAssetUrl` is the
identity on every input starting with `data:`, but the code only checks
`http://` and `https://`, so a `data:` URI is joined with the base URL
instead of being returned unchanged. -/
theorem C4_counterexample :
    resolveAssetUrl "https://b" "data:image/png;base64,AA" =
        "https://b/data:image/png;base64,AA" ∧
      resolveAssetUrl "https://b" "data:image/png;base64,AA" ≠
        "data:image/png;base64,AA" := by
  constructor
  · rfl
  · decide

/-- C4, amended: `window.__resolveAssetUrl` is the identity exactly on the
`http://`/`https://` prefixes; an input starting with `data:` or `blob:` is
not passed through but joined with the base URL via `joinUrl`. -/
theorem C4_resolveAssetUrl_passthrough :
    (∀ base p, (strStartsWith p "http://" || strStartsWith p "https://") = true →
      resolveAssetUrl base p = p) ∧
    (∀ base p, (strStartsWith p "data:" || strStartsWith p "blob:") = true →
      resolveAssetUrl base p = joinUrl base p) := by
  constructor
  · intro base p h
    have hne : p ≠ "" := by
      rcases Bool.or_eq_true_iff.mp h with h1 | h1
      · exact startsWith_ne_empty (q := "http://") rfl h1
      · exact startsWith_ne_empty (q := "https://") rfl h1
    simp [resolveAssetUrl, hne, h]
  · intro base p h
    have hne : p ≠ "" := by
      rcases Bool.or_eq_true_iff.mp h with h1 | h1
      · exact startsWith_ne_empty (q := "data:") rfl h1
      · exact startsWith_ne_empty (q := "blob:") rfl h1
    have hhttp : strStartsWith p "http://" = false := by
      rcases Bool.or_eq_true_iff.mp h with h1 | h1
      · exact data_not_http h1
      · exact blob_not_http h1
    have hhttps : strStartsWith p "https://" = false := by
      rcases Bool.or_eq_true_iff.mp h with h1 | h1
      · exact data_not_https h1
      · exact blob_not_https h1
    simp [resolveAssetUrl, hne, hhttp, hhttps]

/-- C4 witness: the amended passthrough theorem applied at concrete inputs. -/
theorem C4_witness :
    resolveAssetUrl "https://b" "http://x/a.png" = "http://x/a.png" ∧
      resolveAssetUrl "https://b" "data:text/plain,hi" =
        joinUrl "https://b" "data:text/plain,hi" :=
  ⟨C4_resolveAssetUrl_passthrough.1 "https://b" "http://x/a.png" (by decide),
   C4_resolveAssetUrl_passthrough.2 "https://b" "data:text/plain,hi" (by decide)⟩

/-- C10 counterexample: for the empty string the resolver returns `""`,
which *is* the input itself, so the empty string is not an input whose
result is neither the input nor a joined URL — no such input exists. -/
theorem C10_counterexample :
    ¬(resolveAssetUrl "https://b" "" ≠ "" ∧
      resolveAssetUrl "https://b" "" ≠ joinUrl "https://b" "") := by
  decide

/-- C10, amended: on the empty input the resolver returns `""` (not the base
URL and not a joined URL, for a non-empty base), and that return value
coincides with the input, so every input's result is either the input itself
or the input joined with the base URL. -/
theorem C10_empty_input :
    (∀ base, resolveAssetUrl base "" = "") ∧
    (∀ base, base ≠ "" →
      resolveAssetUrl base "" ≠ base ∧ resolveAssetUrl base "" ≠ joinUrl base "") ∧
    (∀ base s, resolveAssetUrl base s = s ∨ resolveAssetUrl base s = joinUrl base s) := by
  refine ⟨fun base => by simp [resolveAssetUrl], fun base hb => ?_, fun base s => ?_⟩
  · have h0 : resolveAssetUrl base "" = "" := by simp [resolveAssetUrl]
    have hj : joinUrl base "" = base := by simp [joinUrl]
    rw [h0, hj]
    exact ⟨fun h => hb h.symm, fun h => hb h.symm⟩
  · by_cases hs : s = ""
    · subst hs
      left
      simp [resolveAssetUrl]
    · by_cases habs :
        (strStartsWith s "http://" || strStartsWith s "https://") = true
      · left
        simp [resolveAssetUrl, hs, habs]
      · right
        simp [resolveAssetUrl, hs, habs]

/-- C10 witness: the amended theorem applied at base `"https://b"` and the
inputs `""` and `"a.png"`. -/
theorem C10_witness :
    resolveAssetUrl "https://b" "" ≠ "https://b" ∧
      (resolveAssetUrl "https://b" "a.png" = "a.png" ∨
        resolveAssetUrl "https://b" "a.png" = joinUrl "https://b" "a.png") :=
  ⟨(C10_empty_input.2.1 "https://b" (by decide)).1,
   C10_empty_input.2.2 "https://b" "a.png"⟩

/-- C2 counterexample: the claim says the join used for script/stylesheet
injection strips one leading slash from the path, but `loadJavaScript` and
`loadStylesheet` only ensure the base ends in a slash and append the path
verbatim, so joining `"https://x/"` with `"/y.js"` there yields a double
slash. -/
theorem C2_counterexample :
    injectJoinUrl "https://x/" "/y.js" = "https://x//y.js" ∧
      injectJoinUrl "https://x/" "/y.js" ≠ "https://x/y.js" := by
  constructor
  · rfl
  · decide

/-- C2, amended: the resolver's `joinUrl` removes exactly one trailing slash
from the base and one leading slash from the path (all three example cases
yield `"https://x/y.js"`, and on non-empty paths it coincides with the
spec's join rule verbatim); the join inlined in the script/stylesheet
injection instead appends a slash to the base when missing and keeps the
path verbatim, so it agrees with `joinUrl` exactly on paths that do not
start with a slash — including two of the three example cases — but not on
slash-prefixed paths. -/
theorem C2_join_rules :
    (joinUrl "https://x/" "/y.js" = "https://x/y.js" ∧
      joinUrl "https://x" "y.js" = "https://x/y.js" ∧
      joinUrl "https://x/" "y.js" = "https://x/y.js") ∧
    (∀ base path, path ≠ "" → joinUrl base path = specClaimedJoin base path) ∧
    (∀ base path, path ≠ "" → strStartsWith path "/" = false →
      injectJoinUrl base path = joinUrl base path) ∧
    (injectJoinUrl "https://x" "y.js" = "https://x/y.js" ∧
      injectJoinUrl "https://x/" "y.js" = "https://x/y.js") := by
  refine ⟨⟨rfl, rfl, rfl⟩, ?_, ?_, rfl, rfl⟩
  · intro base path h
    simp [joinUrl, specClaimedJoin, h]
  · intro base path hne hsl
    unfold injectJoinUrl joinUrl
    rw [if_neg hne]
    simp only [hsl, Bool.false_eq_true, if_false]
    cases hb : strEndsWith base "/" with
    | true =>
      have h2 := dropLastChar_append_slash hb
      simp only [hb, if_true]
      conv_lhs => rw [← h2]
    | false =>
      simp [hb]

/-- C2 witness: the amended join rules applied at concrete inputs,
discharging the non-empty/no-leading-slash hypotheses. -/
theorem C2_witness :
    joinUrl "https://cdn.example.com/app" "main.abc123.js" =
        specClaimedJoin "https://cdn.example.com/app" "main.abc123.js" ∧
      injectJoinUrl "https://cdn.example.com/app" "main.abc123.js" =
        joinUrl "https://cdn.example.com/app" "main.abc123.js" :=
  ⟨C2_join_rules.2.1 "https://cdn.example.com/app" "main.abc123.js" (by decide),
   C2_join_rules.2.2.1 "https://cdn.example.com/app" "main.abc123.js" (by decide)
     (by decide)⟩

/-- C1 counterexample: for the manifest mapping `src/main.tsx` to
`YDTB.abc.js`, the asset map contains `main.tsx`, yet
`window.__resolveAssetUrl` returns the base joined with the literal path,
not with the mapped published path as the claim demands. -/
theorem C1_counterexample :
    (strStartsWith "main.tsx" "http://" = false ∧
      strStartsWith "main.tsx" "https://" = false ∧
      strStartsWith "main.tsx" "data:" = false ∧
      strStartsWith "main.tsx" "blob:" = false) ∧
    objLookup (buildAssetMap manifestC1) "main.tsx" = some "YDTB.abc.js" ∧
    specClaimedResolve "https://b" (buildAssetMap manifestC1) "main.tsx" =
      "https://b/YDTB.abc.js" ∧
    resolveAssetUrl "https://b" "main.tsx" = "https://b/main.tsx" ∧
    resolveAssetUrl "https://b" "main.tsx" ≠
      specClaimedResolve "https://b" (buildAssetMap manifestC1) "main.tsx" := by
  refine ⟨⟨rfl, rfl, rfl, rfl⟩, rfl, rfl, rfl, ?_⟩
  decide

/-- C1, amended: `window.__resolveAssetUrl` performs no AssetMap lookup at
all — for every non-empty path not starting with `http://` or `https://` it
returns `joinUrl(baseUrl, path)`, whether or not the path (stripped of a
leading slash) is a key of the AssetMap; the strip-then-look-up-then-join
behaviour the claim describes is instead implemented by the intercepted
image `src` setter, with which it agrees literally on slash-free relative
paths. -/
theorem C1_resolver_ignores_assetMap :
    (∀ base path, path ≠ "" →
      strStartsWith path "http://" = false → strStartsWith path "https://" = false →
      resolveAssetUrl base path = joinUrl base path) ∧
    (∀ base assetMap url,
      strStartsWith url "http://" = false → strStartsWith url "https://" = false →
      strStartsWith url "data:" = false → strStartsWith url "blob:" = false →
      url ≠ "" → strStartsWith url "/" = false →
      srcSetterLayer base assetMap id url = specClaimedResolve base assetMap url) := by
  constructor
  · intro base path hne h1 h2
    simp [resolveAssetUrl, hne, h1, h2]
  · intro base assetMap url h1 h2 h3 h4 hne hsl
    simp only [srcSetterLayer, specClaimedResolve, hne, h1, h2, h3, h4, hsl,
      Bool.or_self, Bool.false_eq_true, if_false, Bool.or_false, id]

/-- C1 witness: the amended theorem applied at the concrete manifest's asset
map and the path `main.tsx`. -/
theorem C1_witness :
    resolveAssetUrl "https://b" "main.tsx" = joinUrl "https://b" "main.tsx" ∧
      srcSetterLayer "https://b" (buildAssetMap manifestC1) id "main.tsx" =
        specClaimedResolve "https://b" (buildAssetMap manifestC1) "main.tsx" :=
  ⟨C1_resolver_ignores_assetMap.1 "https://b" "main.tsx" (by decide) (by decide)
     (by decide),
   C1_resolver_ignores_assetMap.2 "https://b" (buildAssetMap manifestC1) "main.tsx"
     (by decide) (by decide) (by decide) (by decide) (by decide) (by decide)⟩

/-- C9: the intercepted `src` setter layered twice over the underlying
store: any already-absolute URL (`http://` or `https://`) passes through
both layers unchanged.  Each layer calls the descriptor captured at its own
install time, so the two-layer composite is the finite composition modelled
here — a total function, with no self-reference to recurse into. -/
theorem C9_double_interception_identity :
    ∀ base assetMap base₂ assetMap₂ url,
      (strStartsWith url "http://" || strStartsWith url "https://") = true →
      srcSetterLayer base₂ assetMap₂ (srcSetterLayer base assetMap id) url = url := by
  intro base assetMap base₂ assetMap₂ url h
  have hne : url ≠ "" := by
    rcases Bool.or_eq_true_iff.mp h with h1 | h1
    · exact startsWith_ne_empty (q := "http://") rfl h1
    · exact startsWith_ne_empty (q := "https://") rfl h1
  rcases Bool.or_eq_true_iff.mp h with h1 | h1 <;>
    simp [srcSetterLayer, hne, h1]

/-- C9 witness: a resolver-produced absolute URL fed through two
interception layers is stored unchanged. -/
theorem C9_witness :
    srcSetterLayer "https://b2" [] (srcSetterLayer "https://b" (buildAssetMap manifestC1) id)
        "https://b/YDTB.abc.js" = "https://b/YDTB.abc.js" :=
  C9_double_interception_identity "https://b" (buildAssetMap manifestC1) "https://b2" []
    "https://b/YDTB.abc.js" (by decide)

theorem countShowError_showErrorEvents (cfg : Config) (env : Env) (msg : String) :
    countShowError (showErrorEvents cfg env msg) = 1 := by
  cases h : env.rootExists <;> simp [showErrorEvents, countShowError, h]

theorem countShowError_append (t u : List Event) :
    countShowError (t ++ u) = countShowError t + countShowError u := by
  simp [countShowError, List.filter_append]

theorem showErrorEvents_not_later (cfg : Config) (env : Env) (msg : String) :
    ∀ ev ∈ showErrorEvents cfg env msg, isLaterStageEvent ev = false := by
  cases h : env.rootExists <;> simp [showErrorEvents, h, isLaterStageEvent]

theorem showErrorEvents_not_injection (cfg : Config) (env : Env) (msg : String) :
    ∀ ev ∈ showErrorEvents cfg env msg, isInjectionEvent ev = false := by
  cases h : env.rootExists <;> simp [showErrorEvents, h, isInjectionEvent]

theorem showErrorEvents_not_script (cfg : Config) (env : Env) (msg : String) :
    ∀ ev ∈ showErrorEvents cfg env msg, isScriptStageEvent ev = false := by
  cases h : env.rootExists <;> simp [showErrorEvents, h, isScriptStageEvent]

theorem patchImages_not_mem_showErrorEvents (cfg : Config) (env : Env) (msg : String) :
    Event.patchImages ∉ showErrorEvents cfg env msg := by
  cases h : env.rootExists <;> simp [showErrorEvents, h]

/-- C5 counterexample: for a manifest fetch failure — the claim's own
example — the error-presenting routine runs twice, once from
`fetchManifest`'s catch and once from `initApp`'s top-level catch, not
exactly once. -/
theorem C5_counterexample :
    countShowError
        (runInitApp {}
          { fetchResult := .error "Failed to load manifest: 404 Not Found" }) = 2 ∧
      countShowError
        (runInitApp {}
          { fetchResult := .error "Failed to load manifest: 404 Not Found" }) ≠ 1 := by
  constructor
  · rfl
  · decide

/-- C5, amended: on a manifest fetch failure the error presenter is invoked
exactly twice (the fetch handler presents and rethrows, then the top-level
handler presents again); on a failure in any later stage — entry resolution,
stylesheet load, script load — it is invoked exactly once; in every failure
case the pipeline halts without executing any later stage. -/
theorem C5_error_presentation :
    ∀ (cfg : Config) (env : Env),
      (∀ e, env.fetchResult = .error e →
        countShowError (runInitApp cfg env) = 2 ∧
        (runInitApp cfg env).all (fun ev => !isLaterStageEvent ev) = true) ∧
      (∀ m msg, env.fetchResult = .ok m → findMainAssets m = .error msg →
        countShowError (runInitApp cfg env) = 1 ∧
        (runInitApp cfg env).all (fun ev => !isInjectionEvent ev) = true) ∧
      (∀ m js c, env.fetchResult = .ok m → findMainAssets m = .ok (js, some c) →
        c ≠ "" → env.cssOk = false →
        countShowError (runInitApp cfg env) = 1 ∧
        (runInitApp cfg env).all (fun ev => !isScriptStageEvent ev) = true) ∧
      (∀ m js cssOpt, env.fetchResult = .ok m → findMainAssets m = .ok (js, cssOpt) →
        env.jsOk = false → (cssTruthy cssOpt = false ∨ env.cssOk = true) →
        countShowError (runInitApp cfg env) = 1 ∧
        Event.patchImages ∉ runInitApp cfg env) := by
  intro cfg env
  refine ⟨?_, ?_, ?_, ?_⟩
  · intro e hf
    cases hroot : env.rootExists <;> constructor <;>
      simp [runInitApp, hf, showErrorEvents, hroot, countShowError, isLaterStageEvent]
  · intro m msg hf hfind
    cases hroot : env.rootExists <;> constructor <;>
      simp [runInitApp, hf, hfind, showErrorEvents, hroot, countShowError,
        isInjectionEvent]
  · intro m js c hf hfind hc hcss
    have hct : cssTruthy (some c) = true := by simp [cssTruthy, hc]
    cases hroot : env.rootExists <;> constructor <;>
      simp [runInitApp, hf, hfind, hct, hcss, showErrorEvents, hroot, countShowError,
        isScriptStageEvent]
  · intro m js cssOpt hf hfind hjs hcss
    rcases hcss with hcss | hcss
    · cases hroot : env.rootExists <;> constructor <;>
        simp [runInitApp, hf, hfind, hcss, hjs, showErrorEvents, hroot, countShowError]
    · cases hct : cssTruthy cssOpt <;> cases hroot : env.rootExists <;> constructor <;>
        simp [runInitApp, hf, hfind, hct, hcss, hjs, showErrorEvents, hroot,
          countShowError]

/-- C5 witness: the amended theorem applied at the default configuration and
a failing fetch. -/
theorem C5_witness :
    countShowError (runInitApp {} { fetchResult := .error "boom" }) = 2 :=
  ((C5_error_presentation {} { fetchResult := .error "boom" }).1 "boom" rfl).1

/-- C6: in the spec-modelled configurable pipeline, an absent or empty
`baseUrl` aborts during configuration resolution: the trace is a single
diagnostic log and contains no DOM query, no network fetch, and no element
mutation. -/
theorem C6_missing_baseUrl_aborts :
    ∀ (opts : SpecOpts) (env : SpecEnv),
      opts.baseUrl = none ∨ opts.baseUrl = some "" →
      runSpecPipeline opts env =
          [SpecEvent.log "ConfigurationError: baseUrl is required"] ∧
        (runSpecPipeline opts env).all (fun ev => !isDomOrNetwork ev) = true := by
  intro opts env h
  have hcfg : resolveSpecConfig opts =
      .error "ConfigurationError: baseUrl is required" := by
    rcases h with h | h <;> simp [resolveSpecConfig, h]
  constructor <;> simp [runSpecPipeline, hcfg, isDomOrNetwork]

/-- C6 witness: a configuration without `baseUrl` produces only the
diagnostic log even when containers match and the network would fail. -/
theorem C6_witness :
    runSpecPipeline { baseUrl := none }
        { matched := [1], fetchResult := .error "net down" } =
      [SpecEvent.log "ConfigurationError: baseUrl is required"] :=
  (C6_missing_baseUrl_aborts { baseUrl := none }
    { matched := [1], fetchResult := .error "net down" } (Or.inl rfl)).1

/-- C7: in the spec-modelled configurable pipeline with `mountStrategy`
`"all"` and three matching containers, a manifest-fetch failure after
container location writes the error panel into all three located
containers. -/
theorem C7_mount_all_error_panels :
    ∀ (a b c : Nat) (baseUrl msg : String), baseUrl ≠ "" →
      runSpecPipeline { baseUrl := some baseUrl, mountStrategy := "all" }
          { matched := [a, b, c], fetchResult := .error msg } =
        [SpecEvent.domQuery "#root",
          SpecEvent.netFetch (manifestUrlOf baseUrl "/.vite/manifest.json"),
          SpecEvent.log ("ManifestFetchError: " ++ msg),
          SpecEvent.panelWrite a ("ManifestFetchError: " ++ msg),
          SpecEvent.panelWrite b ("ManifestFetchError: " ++ msg),
          SpecEvent.panelWrite c ("ManifestFetchError: " ++ msg)] := by
  intro a b c baseUrl msg hb
  have hne : ("all" : String) ≠ "last" := by decide
  simp [runSpecPipeline, resolveSpecConfig, hb, selectByStrategy, presentError, hne]

/-- C7 witness: the three-container error fan-out at concrete inputs. -/
theorem C7_witness :
    runSpecPipeline { baseUrl := some "https://b", mountStrategy := "all" }
        { matched := [1, 2, 3], fetchResult := .error "HTTP 500" } =
      [SpecEvent.domQuery "#root",
        SpecEvent.netFetch (manifestUrlOf "https://b" "/.vite/manifest.json"),
        SpecEvent.log ("ManifestFetchError: " ++ "HTTP 500"),
        SpecEvent.panelWrite 1 ("ManifestFetchError: " ++ "HTTP 500"),
        SpecEvent.panelWrite 2 ("ManifestFetchError: " ++ "HTTP 500"),
        SpecEvent.panelWrite 3 ("ManifestFetchError: " ++ "HTTP 500")] :=
  C7_mount_all_error_panels 1 2 3 "https://b" "HTTP 500" (by decide)

theorem entryHeur1_eq (e : ManifestEntry) :
    entryHeur1 e = (e.isEntry && strStartsWith e.file "YDTB.") := by
  unfold entryHeur1
  by_cases hf : e.file = ""
  · rw [hf]
    simp [show strStartsWith "" "YDTB." = false from rfl]
  · simp [bne_iff_ne.mpr hf]

theorem entryHeur2_eq {e : ManifestEntry} (hf : e.file ≠ "") :
    entryHeur2 e = e.isEntry := by
  simp [entryHeur2, bne_iff_ne.mpr hf]

theorem listHasSub_iff_isInfix (p l : List Char) : listHasSub p l = true ↔ p <:+: l := by
  induction l with
  | nil =>
    simp [listHasSub, List.isPrefixOf_iff_prefix, List.prefix_nil, List.infix_nil]
  | cons a t ih =>
    simp only [listHasSub, Bool.or_eq_true, List.isPrefixOf_iff_prefix, ih]
    exact List.infix_cons_iff.symm

theorem infix_foldl_comma (rest : List String) :
    ∀ acc : String,
      acc.data <:+: (rest.foldl (fun acc s => acc ++ ", " ++ s) acc).data := by
  induction rest with
  | nil => intro acc; exact List.infix_refl _
  | cons x xs ih =>
    intro acc
    rw [List.foldl_cons]
    have h1 : acc.data <:+: (acc ++ ", " ++ x).data :=
      ⟨[], ", ".data ++ x.data, by simp [String.data_append, List.append_assoc]⟩
    exact h1.trans (ih (acc ++ ", " ++ x))

theorem mem_infix_foldl_comma (rest : List String) :
    ∀ (acc s : String), s ∈ rest →
      s.data <:+: (rest.foldl (fun acc s => acc ++ ", " ++ s) acc).data := by
  induction rest with
  | nil => intro acc s h; cases h
  | cons x xs ih =>
    intro acc s h
    rw [List.foldl_cons]
    rcases List.mem_cons.mp h with h | h
    · subst h
      have h2 : s.data <:+: (acc ++ ", " ++ s).data :=
        ⟨(acc ++ ", ").data, [], by simp [String.data_append, List.append_assoc]⟩
      exact h2.trans (infix_foldl_comma xs (acc ++ ", " ++ s))
    · exact ih (acc ++ ", " ++ x) s h

theorem key_infix_noEntryMessage (m : Manifest) :
    ∀ k ∈ m.map Prod.fst, strContains (noEntryMessage m) k = true := by
  intro k hk
  unfold strContains noEntryMessage
  rw [listHasSub_iff_isInfix]
  have h1 : k.data <:+: (jsJoinComma (m.map Prod.fst)).data := by
    cases hl : m.map Prod.fst with
    | nil => rw [hl] at hk; cases hk
    | cons a rest =>
      rw [hl] at hk
      rcases List.mem_cons.mp hk with h | h
      · subst h
        exact infix_foldl_comma rest k
      · exact mem_infix_foldl_comma rest a k h
  obtain ⟨s, t, hst⟩ := h1
  refine ⟨("Could not find main JS entry in manifest. Available keys: " : String).data ++ s,
    t, ?_⟩
  rw [String.data_append, ← hst]
  simp [List.append_assoc]

/-- C3: entry selection is exactly the three-heuristic ordered fallback (on
manifests whose entries carry non-empty `file` fields, as the manifest
format requires: (1) `isEntry` with the `"YDTB."` file prefix, (2) any
`isEntry`, (3) a key containing the main-module marker); in a two-entry
manifest where exactly one entry has `isEntry`, that entry is selected in
either key order; and when no heuristic matches, `findMainAssets` fails with
the no-entry error whose message enumerates every manifest key. -/
theorem C3_entry_selection :
    (∀ m : Manifest, (∀ kv ∈ m, kv.2.file ≠ "") →
      findMainJsEntry m = specSelectEntry m) ∧
    (∀ (k₁ k₂ : String) (e₁ e₂ : ManifestEntry),
      e₁.isEntry = true → e₂.isEntry = false → e₁.file ≠ "" →
      findMainJsEntry [(k₁, e₁), (k₂, e₂)] = some e₁ ∧
        findMainJsEntry [(k₂, e₂), (k₁, e₁)] = some e₁) ∧
    (∀ m : Manifest, findMainJsEntry m = none →
      findMainAssets m = .error (noEntryMessage m)) ∧
    (∀ m : Manifest, ∀ k ∈ m.map Prod.fst,
      strContains (noEntryMessage m) k = true) := by
  refine ⟨?_, ?_, ?_, key_infix_noEntryMessage⟩
  · intro m hf
    have e1 : (m.map Prod.snd).find? entryHeur1 =
        (m.map Prod.snd).find? (fun e => e.isEntry && strStartsWith e.file "YDTB.") :=
      find?_congr_mem fun a _ => entryHeur1_eq a
    have e2 : (m.map Prod.snd).find? entryHeur2 =
        (m.map Prod.snd).find? (fun e => e.isEntry) := by
      refine find?_congr_mem fun a ha => ?_
      obtain ⟨kv, hkv, rfl⟩ := List.mem_map.mp ha
      exact entryHeur2_eq (hf kv hkv)
    unfold findMainJsEntry specSelectEntry
    rw [e1, e2]
  · intro k₁ k₂ e₁ e₂ h1 h2 hfile
    have hb : (e₁.file != "") = true := bne_iff_ne.mpr hfile
    cases hsw : strStartsWith e₁.file "YDTB." <;>
      constructor <;>
        simp [findMainJsEntry, entryHeur1, entryHeur2, List.find?, h1, h2, hb, hsw]
  · intro m h
    simp [findMainAssets, h]

/-- C3 witness: the selection conjuncts applied at concrete manifests: the
two-entry manifest in both key orders, and the no-entry manifest whose
error message contains its key. -/
theorem C3_witness :
    findMainJsEntry
        [("src/main.tsx", { file := "main.js", isEntry := true }),
          ("index.html", { file := "index.js" })] =
      some { file := "main.js", isEntry := true } ∧
    findMainJsEntry
        [("index.html", { file := "index.js" }),
          ("src/main.tsx", { file := "main.js", isEntry := true })] =
      some { file := "main.js", isEntry := true } ∧
    findMainAssets [("index.html", { file := "" })] =
      .error (noEntryMessage [("index.html", { file := "" })]) ∧
    strContains (noEntryMessage [("index.html", { file := "" })]) "index.html" = true := by
  refine ⟨(C3_entry_selection.2.1 "src/main.tsx" "index.html"
      { file := "main.js", isEntry := true } { file := "index.js" }
      rfl rfl (by decide)).1,
    (C3_entry_selection.2.1 "src/main.tsx" "index.html"
      { file := "main.js", isEntry := true } { file := "index.js" }
      rfl rfl (by decide)).2,
    C3_entry_selection.2.2.1 [("index.html", { file := "" })] (by decide),
    C3_entry_selection.2.2.2 [("index.html", { file := "" })] "index.html" (by decide)⟩

theorem findMainJsEntry_mem {m : Manifest} {e : ManifestEntry}
    (h : findMainJsEntry m = some e) : e ∈ m.map Prod.snd := by
  unfold findMainJsEntry at h
  cases h1 : (m.map Prod.snd).find? entryHeur1 with
  | some x =>
    rw [h1] at h
    cases h
    exact List.mem_of_find?_eq_some h1
  | none =>
    rw [h1] at h
    cases h2 : (m.map Prod.snd).find? entryHeur2 with
    | some x =>
      rw [h2] at h
      cases h
      exact List.mem_of_find?_eq_some h2
    | none =>
      rw [h2] at h
      cases h3 : m.find? (fun kv => mainKeyMarker kv.1) with
      | some kv =>
        rw [h3] at h
        cases h
        exact List.mem_map.mpr ⟨kv, List.mem_of_find?_eq_some h3, rfl⟩
      | none => rw [h3] at h; cases h

theorem flatMap_css_nil {m : Manifest} (h : ∀ kv ∈ m, kv.2.css = []) :
    (m.map Prod.snd).flatMap (fun entry => entry.css) = [] := by
  induction m with
  | nil => rfl
  | cons kv t ih =>
    simp only [List.map_cons, List.flatMap_cons, h kv (by simp), List.nil_append]
    exact ih fun x hx => h x (by simp [hx])

/-- C8: stylesheet selection is the claimed ordered fallback: the chosen
entry's first own `css` path when that list is non-empty (so for
`css = ["a.css", "b.css"]` exactly `a.css` is chosen and exactly one
stylesheet — `a.css` — is injected); otherwise the first `"YDTB."`-matching
path among all entries' `css` lists, then the first `css` path anywhere; and
when the manifest holds no stylesheet at all the selection is `none`, the
pipeline skips the stylesheet stage with a warning rather than an error, and
the script is still injected. -/
theorem C8_css_selection :
    (∀ (m : Manifest) (chosen : Option ManifestEntry),
      findMainCssFile m chosen = specSelectCss m chosen) ∧
    (∀ (m : Manifest) (e : ManifestEntry), findMainJsEntry m = some e →
      e.css = ["a.css", "b.css"] → findMainAssets m = .ok (e.file, some "a.css")) ∧
    (∀ m : Manifest, (∀ kv ∈ m, kv.2.css = []) →
      findMainCssFile m (findMainJsEntry m) = none) ∧
    (∀ (cfg : Config) (env : Env) (m : Manifest) (js : String),
      env.fetchResult = .ok m → findMainAssets m = .ok (js, none) → env.jsOk = true →
      (runInitApp cfg env).all (fun ev => !isInjectCssEvent ev) = true ∧
        (runInitApp cfg env).all (fun ev => !isShowErrorEvent ev) = true ∧
        Event.injectJs (injectJoinUrl cfg.baseUrl js) ∈ runInitApp cfg env) ∧
    (∀ (cfg : Config) (env : Env) (m : Manifest) (js c : String),
      env.fetchResult = .ok m → findMainAssets m = .ok (js, some c) → c ≠ "" →
      env.cssOk = true →
      (runInitApp cfg env).filter isInjectCssEvent =
        [Event.injectCss (injectJoinUrl cfg.baseUrl c)]) := by
  refine ⟨?_, ?_, ?_, ?_, ?_⟩
  · intro m chosen
    cases chosen with
    | none =>
      simp only [findMainCssFile, specSelectCss]
      cases hfind : ((m.map Prod.snd).flatMap fun entry => entry.css).find?
          (fun c => strStartsWith c "YDTB.") <;>
        simp [hfind, Option.orElse]
    | some e =>
      cases hcss : e.css with
      | nil =>
        simp only [findMainCssFile, specSelectCss, hcss]
        cases hfind : ((m.map Prod.snd).flatMap fun entry => entry.css).find?
            (fun c => strStartsWith c "YDTB.") <;>
          simp [hfind, Option.orElse]
      | cons c cs => simp [findMainCssFile, specSelectCss, hcss]
  · intro m e hsel hcss
    simp [findMainAssets, hsel, findMainCssFile, hcss]
  · intro m h
    cases hsel : findMainJsEntry m with
    | none => simp [findMainCssFile, flatMap_css_nil h]
    | some e =>
      have he : e.css = [] := by
        obtain ⟨kv, hkv, rfl⟩ := List.mem_map.mp (findMainJsEntry_mem hsel)
        exact h kv hkv
      simp [findMainCssFile, he, flatMap_css_nil h]
  · intro cfg env m js hf hfind hjs
    refine ⟨?_, ?_, ?_⟩ <;>
      simp [runInitApp, hf, hfind, cssTruthy, hjs, isInjectCssEvent, isShowErrorEvent]
  · intro cfg env m js c hf hfind hc hcss
    have hct : cssTruthy (some c) = true := by simp [cssTruthy, hc]
    cases hjs : env.jsOk <;>
      cases hroot : env.rootExists <;>
        simp [runInitApp, hf, hfind, hct, hcss, hjs, showErrorEvents, hroot,
          isInjectCssEvent, List.filter]

/-- C8 witness: a manifest whose chosen entry has `css = ["a.css", "b.css"]`
resolves to exactly `a.css`, and the pipeline injects exactly one
stylesheet, `a.css`; a css-free manifest skips the stylesheet without
presenting an error and still injects the script. -/
theorem C8_witness :
    findMainAssets
        [("src/main.tsx",
          { file := "YDTB.abc.js", isEntry := true, css := ["a.css", "b.css"] })] =
      .ok ("YDTB.abc.js", some "a.css") ∧
    (runInitApp {}
        { fetchResult := .ok
            [("src/main.tsx",
              { file := "YDTB.abc.js", isEntry := true, css := ["a.css", "b.css"] })] }).filter
        isInjectCssEvent =
      [Event.injectCss (injectJoinUrl (Config.baseUrl {}) "a.css")] ∧
    (runInitApp {}
        { fetchResult := .ok [("src/main.tsx", { file := "YDTB.abc.js", isEntry := true })] }).all
        (fun ev => !isShowErrorEvent ev) = true := by
  refine ⟨C8_css_selection.2.1
      [("src/main.tsx",
        { file := "YDTB.abc.js", isEntry := true, css := ["a.css", "b.css"] })]
      { file := "YDTB.abc.js", isEntry := true, css := ["a.css", "b.css"] }
      (by decide) rfl,
    C8_css_selection.2.2.2.2 {}
      { fetchResult := .ok
          [("src/main.tsx",
            { file := "YDTB.abc.js", isEntry := true, css := ["a.css", "b.css"] })] }
      [("src/main.tsx",
        { file := "YDTB.abc.js", isEntry := true, css := ["a.css", "b.css"] })]
      "YDTB.abc.js" "a.css" rfl rfl (by decide) rfl,
    (C8_css_selection.2.2.2.1 {}
      { fetchResult := .ok [("src/main.tsx", { file := "YDTB.abc.js", isEntry := true })] }
      [("src/main.tsx", { file := "YDTB.abc.js", isEntry := true })]
      "YDTB.abc.js" rfl rfl rfl).2.1⟩

end SpaLoader
